import Mathlib

/-!
Verification of the R307 fingerprint voting sketch
(sketch_nov10a/sketch_nov10a.ino).

The development shallowly embeds the protocol driver (sendCommand,
readResponse, waitForFinger) and the voter-registry / voting state
machine (the EEPROM slot table written by enrollFingerprint,
deleteByID, resetVotesOnly, resetSystem, markAsVoted, castVote and
verifyAndVote).  Machine bytes are modelled as Nat with explicit
truncation where the C code truncates; EEPROM slot bytes are a
List Nat (one entry per slot, sentinel 0xFF = Empty); fallible
sensor exchanges are modelled by passing the raw response byte list
that readResponse produced.
-/

namespace Fingerprint

/-- Header byte constants and command codes from the sketch. -/
def HEADER_H : Nat := 0xEF

def HEADER_L : Nat := 0x01

def PACKAGE_ID : Nat := 0x01

def MAX_FINGERPRINTS : Nat := 25

def EMPTY_SLOT : Nat := 0xFF

/-! ## PacketCodec: sendCommand (sketch lines 1156-1186) -/

/-- Running 16-bit checksum exactly as sendCommand computes it: a
uint16_t seeded with PACKAGE_ID + both length bytes + cmd, then each
payload byte added with wraparound at 2^16. -/
def sendChecksum (cmd : Nat) (data : List Nat) : Nat :=
  data.foldl (fun a b => (a + b) % 65536)
    ((PACKAGE_ID + (((data.length + 3) >>> 8) &&& 0xFF)
      + ((data.length + 3) &&& 0xFF) + cmd) % 65536)

/-- Byte sequence written to the serial port by sendCommand: header,
four 0xFF address bytes, PACKAGE_ID, big-endian length (= dataLen + 3),
command byte, payload, then the two checksum bytes. -/
def sendCommand (cmd : Nat) (data : List Nat) : List Nat :=
  [HEADER_H, HEADER_L, 0xFF, 0xFF, 0xFF, 0xFF, PACKAGE_ID,
    (((data.length + 3) >>> 8) &&& 0xFF), ((data.length + 3) &&& 0xFF), cmd]
  ++ data
  ++ [((sendChecksum cmd data) >>> 8) &&& 0xFF, (sendChecksum cmd data) &&& 0xFF]

/-- Value of the 2-byte big-endian checksum field of the transmitted
packet (the last two bytes sendCommand appends, at offsets
10 + dataLen and 11 + dataLen). -/
def checksumField (cmd : Nat) (data : List Nat) : Nat :=
  ((sendCommand cmd data).getD (10 + data.length) 0) * 256
    + (sendCommand cmd data).getD (11 + data.length) 0

/-- Checksum formula exactly as the claim words it: 16-bit truncated sum
of the two length bytes, the command byte and the payload bytes, with
the packet-type byte excluded from the sum. -/
def claimedChecksumNoType (cmd : Nat) (data : List Nat) : Nat :=
  ((data.length + 3) / 256 % 256 + (data.length + 3) % 256 + cmd + data.sum) % 65536

/-- Wire layout exactly as the spec words it in section 6: header 0xEF
0x01, 4-byte module address, 0x01 packet type, 2-byte big-endian length
(= payload length + 3), 1-byte command, payload, 2-byte big-endian
checksum. -/
def specPacket (cmd : Nat) (payload : List Nat) : List Nat :=
  [0xEF, 0x01] ++ [0xFF, 0xFF, 0xFF, 0xFF] ++ [0x01]
  ++ [(payload.length + 3) / 256 % 256, (payload.length + 3) % 256]
  ++ [cmd] ++ payload
  ++ [sendChecksum cmd payload / 256 % 256, sendChecksum cmd payload % 256]

lemma and_255_eq_mod (n : Nat) : n &&& 255 = n % 256 := by
  have h := Nat.and_pow_two_sub_one_eq_mod n 8
  norm_num at h
  exact h

lemma shiftRight_8_eq_div (n : Nat) : n >>> 8 = n / 256 := by
  have h := Nat.shiftRight_eq_div_pow n 8
  norm_num at h
  exact h

lemma foldl_add_mod (data : List Nat) :
    ∀ a : Nat, data.foldl (fun x b => (x + b) % 65536) (a % 65536)
      = (a + data.sum) % 65536 := by
  induction data with
  | nil => intro a; simp
  | cons b r ih =>
    intro a
    have h1 : (a % 65536 + b) % 65536 = (a + b) % 65536 := by
      rw [Nat.mod_add_mod]
    simp only [List.foldl_cons, List.sum_cons, h1, ih (a + b)]
    ring_nf

lemma sendChecksum_eq (cmd : Nat) (data : List Nat) :
    sendChecksum cmd data
      = (PACKAGE_ID + (data.length + 3) / 256 % 256 + (data.length + 3) % 256
          + cmd + data.sum) % 65536 := by
  unfold sendChecksum
  rw [foldl_add_mod data]
  simp only [and_255_eq_mod, shiftRight_8_eq_div]

lemma sendChecksum_lt (cmd : Nat) (data : List Nat) :
    sendChecksum cmd data < 65536 := by
  rw [sendChecksum_eq]
  exact Nat.mod_lt _ (by norm_num)

lemma checksumField_eq_sendChecksum (cmd : Nat) (data : List Nat) :
    checksumField cmd data = sendChecksum cmd data := by
  unfold checksumField sendCommand
  set ck := sendChecksum cmd data with hck
  have hassoc :
      ([HEADER_H, HEADER_L, 0xFF, 0xFF, 0xFF, 0xFF, PACKAGE_ID,
          (((data.length + 3) >>> 8) &&& 0xFF), ((data.length + 3) &&& 0xFF), cmd]
        ++ data ++ [(ck >>> 8) &&& 0xFF, ck &&& 0xFF])
      = (([HEADER_H, HEADER_L, 0xFF, 0xFF, 0xFF, 0xFF, PACKAGE_ID,
          (((data.length + 3) >>> 8) &&& 0xFF), ((data.length + 3) &&& 0xFF), cmd]
        ++ data) ++ [(ck >>> 8) &&& 0xFF, ck &&& 0xFF]) := by
    simp [List.append_assoc]
  rw [hassoc]
  have hlen : ([HEADER_H, HEADER_L, 0xFF, 0xFF, 0xFF, 0xFF, PACKAGE_ID,
      (((data.length + 3) >>> 8) &&& 0xFF), ((data.length + 3) &&& 0xFF), cmd]
      ++ data).length = 10 + data.length := by
    simp
    omega
  have h0 : (([HEADER_H, HEADER_L, 0xFF, 0xFF, 0xFF, 0xFF, PACKAGE_ID,
      (((data.length + 3) >>> 8) &&& 0xFF), ((data.length + 3) &&& 0xFF), cmd]
      ++ data) ++ [(ck >>> 8) &&& 0xFF, ck &&& 0xFF]).getD (10 + data.length) 0
      = (ck >>> 8) &&& 0xFF := by
    rw [List.getD_append_right _ _ _ _ (by rw [hlen])]
    rw [hlen]
    simp
  have h1 : (([HEADER_H, HEADER_L, 0xFF, 0xFF, 0xFF, 0xFF, PACKAGE_ID,
      (((data.length + 3) >>> 8) &&& 0xFF), ((data.length + 3) &&& 0xFF), cmd]
      ++ data) ++ [(ck >>> 8) &&& 0xFF, ck &&& 0xFF]).getD (11 + data.length) 0
      = ck &&& 0xFF := by
    rw [List.getD_append_right _ _ _ _ (by rw [hlen]; omega)]
    rw [hlen]
    have : 11 + data.length - (10 + data.length) = 1 := by omega
    rw [this]
    simp
  rw [h0, h1]
  simp only [and_255_eq_mod, shiftRight_8_eq_div]
  have hlt : ck < 65536 := sendChecksum_lt cmd data
  omega

/-- Claim C1 counterexample: at the concrete call sendCommand(SEARCH, [1,0,0,0,0x7F])
made by verifyAndVote, the checksum field the code transmits differs from the
claim's packet-type-excluded sum (the code also adds the packet-type byte 0x01). -/
theorem checksum_excludes_type_counterexample :
    ¬ (checksumField 0x04 [0x01, 0x00, 0x00, 0x00, 0x7F]
        = claimedChecksumNoType 0x04 [0x01, 0x00, 0x00, 0x00, 0x7F]) := by
  decide

/-- Claim C1 (amended): for every command byte and payload of length at most 118,
the 2-byte big-endian checksum field sendCommand appends equals the
16-bit-truncated sum of the packet-type byte (0x01), the two length bytes,
the command byte and the payload bytes; the checksum field itself is never
part of the sum. -/
theorem checksum_includes_packet_type (cmd : Nat) (data : List Nat)
    (hcmd : cmd < 256) (hbytes : ∀ b ∈ data, b < 256) (hlen118 : data.length ≤ 118) :
    checksumField cmd data
      = (PACKAGE_ID + (data.length + 3) / 256 % 256 + (data.length + 3) % 256
          + cmd + data.sum) % 65536 := by
  rw [checksumField_eq_sendChecksum, sendChecksum_eq]

/-- Witness for claim C1 at the search command actually issued by verifyAndVote. -/
theorem checksum_includes_packet_type_witness :
    checksumField 0x04 [0x01, 0x00, 0x00, 0x00, 0x7F]
      = (PACKAGE_ID + (8 : Nat) / 256 % 256 + (8 : Nat) % 256
          + 0x04 + List.sum [0x01, 0x00, 0x00, 0x00, 0x7F]) % 65536 := by
  have h := checksum_includes_packet_type 0x04 [0x01, 0x00, 0x00, 0x00, 0x7F]
    (by decide) (by decide) (by decide)
  simpa using h

/-- Claim C9: for every command byte and payload of length at most 118, sendCommand
transmits exactly the wire layout the spec describes: header 0xEF 0x01, the
4-byte module address 0xFF 0xFF 0xFF 0xFF, packet type 0x01, big-endian
length = payload length + 3, the command byte, the payload, then the 2-byte
big-endian checksum, in that order and nothing else. -/
theorem sendCommand_wire_layout (cmd : Nat) (data : List Nat)
    (hcmd : cmd < 256) (hbytes : ∀ b ∈ data, b < 256) (hlen118 : data.length ≤ 118) :
    sendCommand cmd data = specPacket cmd data := by
  unfold sendCommand specPacket
  simp only [and_255_eq_mod, shiftRight_8_eq_div]
  simp [HEADER_H, HEADER_L, PACKAGE_ID]

/-- Witness for claim C9 at the delete command issued by deleteByID for ID 3. -/
theorem sendCommand_wire_layout_witness :
    sendCommand 0x0C [0x00, 0x03, 0x00, 0x01] = specPacket 0x0C [0x00, 0x03, 0x00, 0x01] :=
  sendCommand_wire_layout 0x0C [0x00, 0x03, 0x00, 0x01]
    (by decide) (by decide) (by decide)

/-! ## Voter registry and voting state (EEPROM slot table + tallies) -/

/-- Persistent device state: the 25 EEPROM slot bytes starting at
EEPROM_VOTED_START (one byte per slot, 0xFF = Empty, bit 7 = voted,
bits 0-6 = fingerprint ID) together with the three vote counters. -/
structure VoteState where
  slots : List Nat
  vote1 : Nat
  vote2 : Nat
  vote3 : Nat
deriving DecidableEq, Repr

/-- Registry write at the end of enrollFingerprint (lines 843-848):
the id is stored, voted bit clear, into the first Empty slot; nothing
happens when no slot is Empty. -/
def allocateSlot : List Nat → Nat → List Nat
  | [], _ => []
  | v :: r, id => if v == EMPTY_SLOT then id :: r else v :: allocateSlot r id

/-- Registry clear in deleteByID (lines 919-925): the first slot equal
to id or to id with the voted bit set is overwritten with 0xFF. -/
def releaseSlot : List Nat → Nat → List Nat
  | [], _ => []
  | v :: r, id =>
    if v == id || v == (id ||| 0x80) then EMPTY_SLOT :: r
    else v :: releaseSlot r id

/-- markAsVoted (lines 564-573): sets the high bit on the first slot
whose byte equals id exactly; a no-op when no slot stores id unvoted. -/
def markAsVoted : List Nat → Nat → List Nat
  | [], _ => []
  | v :: r, id => if v == id then (id ||| 0x80) :: r else v :: markAsVoted r id

/-- Eligibility scan of verifyAndVote (lines 429-435): the voter is
already-voted iff some slot byte equals matchID with the voted bit set. -/
def alreadyVoted (slots : List Nat) (matchID : Nat) : Bool :=
  slots.any (fun v => v == (matchID ||| 0x80))

inductive Candidate
  | one
  | two
  | three
deriving DecidableEq, Repr

/-- Tally increment performed by the chosen branch of castVote. -/
def recordVote (st : VoteState) (c : Candidate) : VoteState :=
  match c with
  | .one => { st with vote1 := st.vote1 + 1 }
  | .two => { st with vote2 := st.vote2 + 1 }
  | .three => { st with vote3 := st.vote3 + 1 }

def tally (st : VoteState) : Candidate → Nat
  | .one => st.vote1
  | .two => st.vote2
  | .three => st.vote3

/-- castVote (lines 487-552): a candidate button press increments that
candidate's tally, persists it, then calls markAsVoted; the 15-second
timeout path (modelled by none) changes nothing. -/
def castVote (st : VoteState) (voterID : Nat) (sel : Option Candidate) : VoteState :=
  match sel with
  | none => st
  | some c =>
    let st' := recordVote st c
    { st' with slots := markAsVoted st'.slots voterID }

inductive VoteOutcome
  | noMatch
  | rejected
  | offered
deriving DecidableEq, Repr

/-- Search-response acceptance of verifyAndVote (lines 419-421): a match
requires at least 16 bytes and confirmation code 0x00 at offset 9; the
matched ID is the big-endian pair at offsets 10-11. -/
def searchMatch (resp : List Nat) : Option Nat :=
  if 16 ≤ resp.length ∧ resp.getD 9 0 = 0 then
    some (((resp.getD 10 0) <<< 8) ||| resp.getD 11 0)
  else none

/-- Post-match portion of verifyAndVote (lines 429-458): an already-voted
match returns early with no state change; otherwise candidate selection
is offered and castVote runs. -/
def afterMatch (st : VoteState) (matchID : Nat) (sel : Option Candidate) :
    VoteState × VoteOutcome :=
  if alreadyVoted st.slots matchID then (st, .rejected)
  else (castVote st matchID sel, .offered)

/-- Search-and-vote portion of verifyAndVote (lines 419-474). -/
def verifyAndVoteStep (st : VoteState) (resp : List Nat) (sel : Option Candidate) :
    VoteState × VoteOutcome :=
  match searchMatch resp with
  | none => (st, .noMatch)
  | some id => afterMatch st id sel

/-- Sensor confirmation test in deleteByID (line 917). -/
def deleteConfirmed (resp : List Nat) : Bool :=
  decide (12 ≤ resp.length) && (resp.getD 9 0 == 0)

/-- Registry/tally effect of deleteByID (lines 910-937): only a confirmed
sensor delete releases the slot; tallies are never touched. -/
def deleteByIDStep (st : VoteState) (id : Nat) (resp : List Nat) : VoteState :=
  if deleteConfirmed resp then { st with slots := releaseSlot st.slots id } else st

/-- resetVotesOnly (lines 273-312): zero the three tallies and clear the
high bit of every non-Empty slot byte. -/
def resetVotesOnly (st : VoteState) : VoteState :=
  { slots := st.slots.map (fun v => if v == EMPTY_SLOT then v else v &&& 0x7F),
    vote1 := 0, vote2 := 0, vote3 := 0 }

/-- resetSystem (lines 325-349): zero the three tallies and write 0xFF
into all 25 slots. -/
def resetSystem (_st : VoteState) : VoteState :=
  { slots := List.replicate MAX_FINGERPRINTS EMPTY_SLOT,
    vote1 := 0, vote2 := 0, vote3 := 0 }

/-- Final registry step of a successful enrollment (lines 835-858): the
slot write runs unconditionally after storeModel succeeds, and the sketch
then always displays SUCCESS, so the reported flag is always true even
when no Empty slot existed and nothing was written. -/
def enrollRegistryStep (st : VoteState) (id : Nat) : VoteState × Bool :=
  ({ st with slots := allocateSlot st.slots id }, true)

/-! ## Claim C2: registry uniqueness under allocate/release sequences -/

inductive RegOp
  | alloc (id : Nat)
  | rel (id : Nat)
deriving DecidableEq, Repr

def applyOps : List RegOp → List Nat → List Nat
  | [], s => s
  | RegOp.alloc id :: rest, s => applyOps rest (allocateSlot s id)
  | RegOp.rel id :: rest, s => applyOps rest (releaseSlot s id)

def initRegistry : List Nat := List.replicate MAX_FINGERPRINTS EMPTY_SLOT

/-- The 7-bit fingerprint ID of a slot byte, ignoring the voted bit. -/
def slotId (v : Nat) : Nat := v &&& 0x7F

/-- No two non-Empty slots hold the same ID (ignoring the voted bit). -/
def SlotsUnique (slots : List Nat) : Prop :=
  List.Pairwise (fun a b => a ≠ EMPTY_SLOT → b ≠ EMPTY_SLOT → slotId a ≠ slotId b) slots

/-- An allocate is fresh when its id is in range 1..25 and no occupied
slot already stores that id (voted or not). -/
def freshAlloc (s : List Nat) (id : Nat) : Bool :=
  decide (1 ≤ id) && decide (id ≤ MAX_FINGERPRINTS)
    && s.all (fun v => v == EMPTY_SLOT || slotId v != id)

def okOps : List RegOp → List Nat → Bool
  | [], _ => true
  | RegOp.alloc id :: rest, s => freshAlloc s id && okOps rest (allocateSlot s id)
  | RegOp.rel id :: rest, s => okOps rest (releaseSlot s id)

lemma mem_allocateSlot {b : Nat} :
    ∀ {s : List Nat} {id : Nat}, b ∈ allocateSlot s id → b = id ∨ b ∈ s := by
  intro s
  induction s with
  | nil => intro id h; simp [allocateSlot] at h
  | cons v r ih =>
    intro id h
    by_cases hv : (v == EMPTY_SLOT) = true
    · simp [allocateSlot, hv] at h
      rcases h with h | h
      · exact Or.inl h
      · exact Or.inr (List.mem_cons_of_mem _ h)
    · simp only [allocateSlot, hv, Bool.false_eq_true, if_false, List.mem_cons] at h
      rcases h with h | h
      · exact Or.inr (by simp [h])
      · rcases ih h with h' | h'
        · exact Or.inl h'
        · exact Or.inr (List.mem_cons_of_mem _ h')

lemma mem_releaseSlot {b : Nat} :
    ∀ {s : List Nat} {id : Nat}, b ∈ releaseSlot s id → b = EMPTY_SLOT ∨ b ∈ s := by
  intro s
  induction s with
  | nil => intro id h; simp [releaseSlot] at h
  | cons v r ih =>
    intro id h
    by_cases hv : (v == id || v == (id ||| 0x80)) = true
    · simp [releaseSlot, hv] at h
      rcases h with h | h
      · exact Or.inl h
      · exact Or.inr (List.mem_cons_of_mem _ h)
    · simp only [releaseSlot, hv, Bool.false_eq_true, if_false, List.mem_cons] at h
      rcases h with h | h
      · exact Or.inr (by simp [h])
      · rcases ih h with h' | h'
        · exact Or.inl h'
        · exact Or.inr (List.mem_cons_of_mem _ h')

lemma slotId_of_lt {id : Nat} (h : id < 128) : slotId id = id := by
  unfold slotId
  have h7 := Nat.and_pow_two_sub_one_eq_mod id 7
  norm_num at h7
  rw [h7]
  exact Nat.mod_eq_of_lt h

lemma allocateSlot_unique :
    ∀ {s : List Nat} {id : Nat}, SlotsUnique s → id < 128 →
      (∀ v ∈ s, v ≠ EMPTY_SLOT → slotId v ≠ id) →
      SlotsUnique (allocateSlot s id) := by
  intro s
  induction s with
  | nil => intro id _ _ _; simp [allocateSlot, SlotsUnique]
  | cons v r ih =>
    intro id hu hid hfresh
    rw [SlotsUnique, List.pairwise_cons] at hu
    by_cases hv : (v == EMPTY_SLOT) = true
    · simp only [allocateSlot, hv, if_true]
      rw [SlotsUnique, List.pairwise_cons]
      constructor
      · intro w hw _ hw255
        rw [slotId_of_lt hid]
        exact fun hEq => (hfresh w (List.mem_cons_of_mem _ hw) hw255) hEq.symm
      · exact hu.2
    · simp only [allocateSlot, hv, Bool.false_eq_true, if_false]
      rw [SlotsUnique, List.pairwise_cons]
      constructor
      · intro w hw hv255 hw255
        rcases mem_allocateSlot hw with h' | h'
        · subst h'
          rw [slotId_of_lt hid]
          exact hfresh v (List.mem_cons_self _ _) hv255
        · exact hu.1 w h' hv255 hw255
      · exact ih hu.2 hid (fun w hw => hfresh w (List.mem_cons_of_mem _ hw))

lemma releaseSlot_unique :
    ∀ {s : List Nat} {id : Nat}, SlotsUnique s → SlotsUnique (releaseSlot s id) := by
  intro s
  induction s with
  | nil => intro id _; simp [releaseSlot, SlotsUnique]
  | cons v r ih =>
    intro id hu
    rw [SlotsUnique, List.pairwise_cons] at hu
    by_cases hv : (v == id || v == (id ||| 0x80)) = true
    · simp only [releaseSlot, hv, if_true]
      rw [SlotsUnique, List.pairwise_cons]
      exact ⟨fun w _ h255 => absurd rfl h255, hu.2⟩
    · simp only [releaseSlot, hv, Bool.false_eq_true, if_false]
      rw [SlotsUnique, List.pairwise_cons]
      constructor
      · intro w hw hv255 hw255
        rcases mem_releaseSlot hw with h' | h'
        · exact absurd h' hw255
        · exact hu.1 w h' hv255 hw255
      · exact ih hu.2

lemma okOps_applyOps :
    ∀ (ops : List RegOp) (s : List Nat), okOps ops s = true → SlotsUnique s →
      SlotsUnique (applyOps ops s) := by
  intro ops
  induction ops with
  | nil => intro s _ hu; exact hu
  | cons op rest ih =>
    intro s hok hu
    cases op with
    | alloc id =>
      simp only [okOps, Bool.and_eq_true] at hok
      have hfr := hok.1
      simp only [freshAlloc, Bool.and_eq_true, decide_eq_true_eq,
        List.all_eq_true, Bool.or_eq_true, beq_iff_eq, bne_iff_ne] at hfr
      have h25 : id ≤ MAX_FINGERPRINTS := hfr.1.2
      unfold MAX_FINGERPRINTS at h25
      refine ih (allocateSlot s id) hok.2 ?_
      refine allocateSlot_unique hu (by omega) ?_
      intro v hv hv255
      rcases hfr.2 v hv with h' | h'
      · exact absurd h' hv255
      · exact h'
    | rel id =>
      simp only [okOps] at hok
      exact ih (releaseSlot s id) hok (releaseSlot_unique hu)

/-- Claim C2 counterexample: enrolling ID 5 twice in a row (two allocate
steps, which the sketch permits because enrollFingerprint never checks
whether the selected id is already in the registry) leaves two non-Empty
slots both holding ID 5. -/
theorem registry_unique_counterexample :
    ¬ SlotsUnique (applyOps [RegOp.alloc 5, RegOp.alloc 5] initRegistry) := by
  unfold SlotsUnique
  decide

/-- Claim C2 (amended): after any sequence of allocate/release steps from
the all-Empty registry in which every allocate uses an in-range id (1..25)
not already present in a non-Empty slot (ignoring the voted bit), no two
non-Empty slots hold the same ID. -/
theorem registry_unique_of_fresh (ops : List RegOp)
    (h : okOps ops initRegistry = true) :
    SlotsUnique (applyOps ops initRegistry) :=
  okOps_applyOps ops initRegistry h (by unfold SlotsUnique; decide)

/-- Witness for claim C2: enroll 5, delete 5, enroll 5 again is a fresh
sequence and the resulting registry has no duplicate ID. -/
theorem registry_unique_of_fresh_witness :
    okOps [RegOp.alloc 5, RegOp.rel 5, RegOp.alloc 5] initRegistry = true ∧
      SlotsUnique (applyOps [RegOp.alloc 5, RegOp.rel 5, RegOp.alloc 5] initRegistry) :=
  ⟨by decide, registry_unique_of_fresh _ (by decide)⟩

/-! ## Claim C3: an already-voted match is rejected with no state change -/

/-- Claim C3: for every registry/tally state and every matched ID, if some
slot holds that ID with the voted bit set then the post-match step of
verifyAndVote rejects the attempt (candidate selection is never offered)
and leaves all three tallies and every registry slot unchanged. -/
theorem already_voted_rejected (st : VoteState) (matchID : Nat)
    (sel : Option Candidate) (h : (matchID ||| 0x80) ∈ st.slots) :
    (afterMatch st matchID sel).1 = st ∧
      (afterMatch st matchID sel).2 = VoteOutcome.rejected := by
  have hv : alreadyVoted st.slots matchID = true := by
    simp only [alreadyVoted, List.any_eq_true]
    exact ⟨_, h, by simp⟩
  simp [afterMatch, hv]

/-- Witness for claim C3: ID 5 voted (slot byte 0x85) is rejected. -/
theorem already_voted_rejected_witness :
    ((5 : Nat) ||| 0x80) ∈ (0x85 :: List.replicate 24 EMPTY_SLOT) ∧
      (afterMatch ⟨0x85 :: List.replicate 24 EMPTY_SLOT, 1, 2, 0⟩ 5
          (some Candidate.two)).1 = ⟨0x85 :: List.replicate 24 EMPTY_SLOT, 1, 2, 0⟩ ∧
      (afterMatch ⟨0x85 :: List.replicate 24 EMPTY_SLOT, 1, 2, 0⟩ 5
          (some Candidate.two)).2 = VoteOutcome.rejected :=
  ⟨by decide, already_voted_rejected _ 5 _ (by decide)⟩

/-! ## Claim C4: a matched ID absent from the registry votes without trace -/

lemma markAsVoted_of_not_mem :
    ∀ {s : List Nat} {id : Nat}, (∀ v ∈ s, v ≠ id) → markAsVoted s id = s := by
  intro s
  induction s with
  | nil => intro id _; rfl
  | cons v r ih =>
    intro id h
    have hv : (v == id) = false := by
      simpa using h v (List.mem_cons_self _ _)
    simp only [markAsVoted, hv, Bool.false_eq_true, if_false]
    rw [ih (fun w hw => h w (List.mem_cons_of_mem _ hw))]

lemma alreadyVoted_eq_false {s : List Nat} {id : Nat}
    (h : ∀ v ∈ s, v ≠ (id ||| 0x80)) : alreadyVoted s id = false := by
  rw [alreadyVoted, List.any_eq_false]
  intro v hv
  simpa using h v hv

lemma recordVote_slots (st : VoteState) (c : Candidate) :
    (recordVote st c).slots = st.slots := by
  cases c <;> rfl

lemma tally_recordVote (st : VoteState) (c c' : Candidate) :
    tally (recordVote st c) c' = if c' = c then tally st c' + 1 else tally st c' := by
  cases c <;> cases c' <;> simp [tally, recordVote]

/-- Claim C4: if the search response reports a match (confirmation 0x00,
at least 16 bytes) for an ID occupying no registry slot, neither unvoted
nor voted, then the eligibility check passes, selection is offered, the
chosen tally is incremented with the others untouched, markAsVoted writes
nothing (slots unchanged), and the same ID still passes the eligibility
check afterwards. -/
theorem unregistered_match_votes_without_trace (st : VoteState)
    (resp : List Nat) (id : Nat) (c : Candidate)
    (hmatch : searchMatch resp = some id)
    (habs : ∀ v ∈ st.slots, v ≠ id ∧ v ≠ (id ||| 0x80)) :
    (verifyAndVoteStep st resp (some c)).2 = VoteOutcome.offered ∧
      (verifyAndVoteStep st resp (some c)).1.slots = st.slots ∧
      tally (verifyAndVoteStep st resp (some c)).1 c = tally st c + 1 ∧
      (∀ c', c' ≠ c → tally (verifyAndVoteStep st resp (some c)).1 c' = tally st c') ∧
      alreadyVoted (verifyAndVoteStep st resp (some c)).1.slots id = false := by
  have hnv : alreadyVoted st.slots id = false :=
    alreadyVoted_eq_false (fun v hv => (habs v hv).2)
  have hcast : castVote st id (some c) = recordVote st c := by
    have hm : markAsVoted (recordVote st c).slots id = (recordVote st c).slots := by
      rw [recordVote_slots]
      exact markAsVoted_of_not_mem (fun v hv => (habs v hv).1)
    simp only [castVote]
    rw [hm]
  have hstep : verifyAndVoteStep st resp (some c) = (recordVote st c, .offered) := by
    rw [verifyAndVoteStep, hmatch]
    simp only [afterMatch, hnv, Bool.false_eq_true, if_false]
    rw [hcast]
  rw [hstep]
  refine ⟨rfl, recordVote_slots st c, ?_, ?_, ?_⟩
  · simp [tally_recordVote]
  · intro c' hc'
    simp [tally_recordVote, hc']
  · rw [recordVote_slots]
    exact hnv

/-- A well-formed search response reporting a match on ID 5 with
confidence 42 (16 bytes, confirmation 0x00 at offset 9). -/
def sampleSearchResp : List Nat :=
  [0xEF, 0x01, 0xFF, 0xFF, 0xFF, 0xFF, 0x07, 0x00, 0x07,
    0x00, 0x00, 0x05, 0x00, 0x2A, 0x01, 0x02]

/-- Witness for claim C4: registry holds only ID 7, sensor matches ID 5. -/
theorem unregistered_match_votes_without_trace_witness :
    (verifyAndVoteStep ⟨7 :: List.replicate 24 EMPTY_SLOT, 0, 0, 0⟩
        sampleSearchResp (some Candidate.two)).2 = VoteOutcome.offered ∧
      (verifyAndVoteStep ⟨7 :: List.replicate 24 EMPTY_SLOT, 0, 0, 0⟩
          sampleSearchResp (some Candidate.two)).1.slots
        = (⟨7 :: List.replicate 24 EMPTY_SLOT, 0, 0, 0⟩ : VoteState).slots ∧
      tally (verifyAndVoteStep ⟨7 :: List.replicate 24 EMPTY_SLOT, 0, 0, 0⟩
          sampleSearchResp (some Candidate.two)).1 Candidate.two
        = tally ⟨7 :: List.replicate 24 EMPTY_SLOT, 0, 0, 0⟩ Candidate.two + 1 ∧
      (∀ c', c' ≠ Candidate.two →
        tally (verifyAndVoteStep ⟨7 :: List.replicate 24 EMPTY_SLOT, 0, 0, 0⟩
            sampleSearchResp (some Candidate.two)).1 c'
          = tally ⟨7 :: List.replicate 24 EMPTY_SLOT, 0, 0, 0⟩ c') ∧
      alreadyVoted (verifyAndVoteStep ⟨7 :: List.replicate 24 EMPTY_SLOT, 0, 0, 0⟩
          sampleSearchResp (some Candidate.two)).1.slots 5 = false :=
  unregistered_match_votes_without_trace _ sampleSearchResp 5 Candidate.two
    (by decide) (by decide)

/-! ## Claim C5: deletion is fail-closed -/

lemma releaseSlot_split :
    ∀ {s : List Nat} {id : Nat}, (∃ v ∈ s, v = id ∨ v = (id ||| 0x80)) →
      ∃ l₁ v' l₂, s = l₁ ++ v' :: l₂ ∧ (v' = id ∨ v' = (id ||| 0x80)) ∧
        releaseSlot s id = l₁ ++ EMPTY_SLOT :: l₂ := by
  intro s
  induction s with
  | nil =>
    intro id h
    rcases h with ⟨v, hv, _⟩
    simp at hv
  | cons v r ih =>
    intro id h
    by_cases hv : (v == id || v == (id ||| 0x80)) = true
    · refine ⟨[], v, r, rfl, ?_, ?_⟩
      · simpa using hv
      · simp [releaseSlot, hv]
    · have h' : ∃ w ∈ r, w = id ∨ w = (id ||| 0x80) := by
        rcases h with ⟨w, hw, hwid⟩
        rcases List.mem_cons.1 hw with rfl | hwr
        · exact absurd (by simpa using hwid) (by simpa using hv)
        · exact ⟨w, hwr, hwid⟩
      rcases ih h' with ⟨l₁, v', l₂, hs, hv', hrel⟩
      refine ⟨v :: l₁, v', l₂, by rw [hs]; rfl, hv', ?_⟩
      simp only [releaseSlot, hv, Bool.false_eq_true, if_false, hrel]
      rfl

/-- Claim C5: deleteByID releases the registry slot holding the selected
ID (voted or not) exactly when the sensor response has at least 12 bytes
with confirmation 0x00; on an absent, short or failed response every slot
and all tallies are unchanged, and even on success the tallies are
unchanged. -/
theorem deleteByID_fail_closed (st : VoteState) (id : Nat) (resp : List Nat) :
    (deleteConfirmed resp = false → deleteByIDStep st id resp = st) ∧
      (deleteConfirmed resp = true →
        (deleteByIDStep st id resp).vote1 = st.vote1 ∧
        (deleteByIDStep st id resp).vote2 = st.vote2 ∧
        (deleteByIDStep st id resp).vote3 = st.vote3 ∧
        ((∃ v ∈ st.slots, v = id ∨ v = (id ||| 0x80)) →
          ∃ l₁ v' l₂, st.slots = l₁ ++ v' :: l₂ ∧ (v' = id ∨ v' = (id ||| 0x80)) ∧
            (deleteByIDStep st id resp).slots = l₁ ++ EMPTY_SLOT :: l₂)) := by
  constructor
  · intro h
    simp [deleteByIDStep, h]
  · intro h
    have hs : deleteByIDStep st id resp = { st with slots := releaseSlot st.slots id } := by
      simp [deleteByIDStep, h]
    rw [hs]
    exact ⟨rfl, rfl, rfl, fun hex => releaseSlot_split hex⟩

/-- Witness for claim C5: deleting ID 7 with no sensor response at all
leaves the state untouched. -/
theorem deleteByID_fail_closed_witness :
    deleteConfirmed ([] : List Nat) = false ∧
      deleteByIDStep ⟨7 :: List.replicate 24 EMPTY_SLOT, 1, 2, 3⟩ 7 []
        = ⟨7 :: List.replicate 24 EMPTY_SLOT, 1, 2, 3⟩ :=
  ⟨by decide, (deleteByID_fail_closed ⟨7 :: List.replicate 24 EMPTY_SLOT, 1, 2, 3⟩ 7 []).1
    (by decide)⟩

/-! ## Claim C6: reset scoping -/

lemma and127_and128 (a : Nat) : (a &&& 127) &&& 128 = 0 := by
  rw [Nat.and_assoc, show (127 &&& 128 : Nat) = 0 from rfl, Nat.and_zero]

lemma and127_idem (a : Nat) : (a &&& 127) &&& 127 = a &&& 127 := by
  rw [Nat.and_assoc, show (127 &&& 127 : Nat) = 127 from rfl]

lemma and127_ne_255 (a : Nat) : a &&& 127 ≠ 255 := by
  have h : a &&& 127 ≤ 127 := Nat.and_le_right
  omega

lemma getD_resetVotesOnly (st : VoteState) (i : Nat) :
    (resetVotesOnly st).slots.getD i EMPTY_SLOT
      = if st.slots.getD i EMPTY_SLOT == EMPTY_SLOT then st.slots.getD i EMPTY_SLOT
        else st.slots.getD i EMPTY_SLOT &&& 0x7F :=
  List.getD_map st.slots EMPTY_SLOT (fun v => if v == EMPTY_SLOT then v else v &&& 0x7F)

lemma getD_replicate_full {i : Nat} (h : i < MAX_FINGERPRINTS) :
    (List.replicate MAX_FINGERPRINTS EMPTY_SLOT).getD i 0 = EMPTY_SLOT := by
  rw [List.getD_eq_getElem _ _ (by simpa using h)]
  simp

/-- Claim C6: resetVotesOnly zeroes the three tallies, keeps every Empty
slot Empty, and on every non-Empty slot clears the voted bit, preserves
the 7-bit ID and never turns the slot Empty; resetSystem zeroes the three
tallies and sets each of the 25 slots to the Empty sentinel 0xFF. -/
theorem reset_scoping (st : VoteState) (i : Nat) :
    ((resetVotesOnly st).vote1 = 0 ∧ (resetVotesOnly st).vote2 = 0 ∧
      (resetVotesOnly st).vote3 = 0) ∧
    (st.slots.getD i EMPTY_SLOT = EMPTY_SLOT →
      (resetVotesOnly st).slots.getD i EMPTY_SLOT = EMPTY_SLOT) ∧
    (st.slots.getD i EMPTY_SLOT ≠ EMPTY_SLOT →
      (resetVotesOnly st).slots.getD i EMPTY_SLOT &&& 0x80 = 0 ∧
      (resetVotesOnly st).slots.getD i EMPTY_SLOT &&& 0x7F
        = st.slots.getD i EMPTY_SLOT &&& 0x7F ∧
      (resetVotesOnly st).slots.getD i EMPTY_SLOT ≠ EMPTY_SLOT) ∧
    ((resetSystem st).vote1 = 0 ∧ (resetSystem st).vote2 = 0 ∧
      (resetSystem st).vote3 = 0) ∧
    (resetSystem st).slots.length = MAX_FINGERPRINTS ∧
    (i < MAX_FINGERPRINTS → (resetSystem st).slots.getD i 0 = EMPTY_SLOT) := by
  refine ⟨⟨rfl, rfl, rfl⟩, ?_, ?_, ⟨rfl, rfl, rfl⟩, by simp [resetSystem], ?_⟩
  · intro h
    rw [getD_resetVotesOnly, h]
    simp
  · intro h
    have hbeq : (st.slots.getD i EMPTY_SLOT == EMPTY_SLOT) = false := by
      simpa using h
    rw [getD_resetVotesOnly]
    simp only [hbeq, Bool.false_eq_true, if_false]
    exact ⟨and127_and128 _, and127_idem _, fun hc => and127_ne_255 _ hc⟩
  · intro h
    exact getD_replicate_full h

/-- Witness for claim C6: slot byte 0x85 (ID 5, voted) becomes 0x05 with
the tallies zeroed, and resetSystem empties slot 0. -/
theorem reset_scoping_witness :
    (([0x85, 7, 0xFF] : List Nat).getD 0 EMPTY_SLOT ≠ EMPTY_SLOT ∧
      (resetVotesOnly ⟨[0x85, 7, 0xFF], 3, 1, 4⟩).slots.getD 0 EMPTY_SLOT &&& 0x80 = 0 ∧
      (resetVotesOnly ⟨[0x85, 7, 0xFF], 3, 1, 4⟩).slots.getD 0 EMPTY_SLOT &&& 0x7F
        = ([0x85, 7, 0xFF] : List Nat).getD 0 EMPTY_SLOT &&& 0x7F ∧
      (resetVotesOnly ⟨[0x85, 7, 0xFF], 3, 1, 4⟩).slots.getD 0 EMPTY_SLOT ≠ EMPTY_SLOT) ∧
    (0 < MAX_FINGERPRINTS → (resetSystem ⟨[0x85, 7, 0xFF], 3, 1, 4⟩).slots.getD 0 0 = EMPTY_SLOT) :=
  ⟨⟨by decide, (reset_scoping ⟨[0x85, 7, 0xFF], 3, 1, 4⟩ 0).2.2.1 (by decide)⟩,
    (reset_scoping ⟨[0x85, 7, 0xFF], 3, 1, 4⟩ 0).2.2.2.2.2⟩

/-! ## Claim C7: allocate on a full registry -/

/-- A fully occupied registry: 25 slots holding IDs 1..25. -/
def fullRegistry : List Nat := (List.range MAX_FINGERPRINTS).map (fun k => k + 1)

lemma allocateSlot_of_full :
    ∀ {s : List Nat} {id : Nat}, (∀ v ∈ s, v ≠ EMPTY_SLOT) → allocateSlot s id = s := by
  intro s
  induction s with
  | nil => intro id _; rfl
  | cons v r ih =>
    intro id h
    have hv : (v == EMPTY_SLOT) = false := by
      simpa using h v (List.mem_cons_self _ _)
    simp only [allocateSlot, hv, Bool.false_eq_true, if_false]
    rw [ih (fun w hw => h w (List.mem_cons_of_mem _ hw))]

/-- Claim C7 counterexample: with all 25 slots occupied the enrollment
registry write indeed mutates nothing, but the sketch still reports
success (no failure is reported), so the claim as stated is false. -/
theorem allocate_full_counterexample :
    ¬ ((enrollRegistryStep ⟨fullRegistry, 0, 0, 0⟩ 5).1 = ⟨fullRegistry, 0, 0, 0⟩ ∧
        (enrollRegistryStep ⟨fullRegistry, 0, 0, 0⟩ 5).2 = false) := by
  decide

/-- Claim C7 (amended): when every slot is non-Empty the enrollment
registry write mutates no slot and no tally, and the workflow reports
success anyway (the enrollment is dropped silently, no failure report). -/
theorem allocate_full_silent (st : VoteState) (id : Nat)
    (h : ∀ v ∈ st.slots, v ≠ EMPTY_SLOT) :
    enrollRegistryStep st id = (st, true) := by
  unfold enrollRegistryStep
  rw [allocateSlot_of_full h]

/-- Witness for claim C7 on the concrete full registry. -/
theorem allocate_full_silent_witness :
    enrollRegistryStep ⟨fullRegistry, 0, 0, 0⟩ 9 = (⟨fullRegistry, 0, 0, 0⟩, true) :=
  allocate_full_silent _ 9 (by decide)

/-! ## Claim C8: waitForFinger terminates (lines 953-976) -/

/-- Polling loop of waitForFinger, fuelled by the loop counter the code
initialises to timeoutSeconds * 10 and decrements exactly once per
iteration in every non-success branch (the code's explicit 0x02
no-finger branch and the fall-through branch both decrement once).
The resps argument gives the bytes readResponse yields on the k-th
poll; the result is the returned Bool and the number of polls made. -/
def waitLoop (resps : Nat → List Nat) : Nat → Nat → Bool × Nat
  | 0, polls => (false, polls)
  | t + 1, polls =>
    if 12 ≤ (resps polls).length then
      if (resps polls).getD 9 0 = 0 then (true, polls + 1)
      else if (resps polls).getD 9 0 = 2 then waitLoop resps t (polls + 1)
      else waitLoop resps t (polls + 1)
    else waitLoop resps t (polls + 1)

/-- waitForFinger(timeoutSeconds): poll with fuel timeoutSeconds * 10. -/
def waitForFinger (resps : Nat → List Nat) (timeoutSeconds : Nat) : Bool × Nat :=
  waitLoop resps (timeoutSeconds * 10) 0

lemma waitLoop_polls_le (resps : Nat → List Nat) :
    ∀ (t polls : Nat), (waitLoop resps t polls).2 ≤ polls + t := by
  intro t
  induction t with
  | zero => intro polls; simp [waitLoop]
  | succ t ih =>
    intro polls
    rw [waitLoop]
    by_cases h1 : 12 ≤ (resps polls).length
    · rw [if_pos h1]
      by_cases h2 : (resps polls).getD 9 0 = 0
      · rw [if_pos h2]
        show polls + 1 ≤ polls + (t + 1)
        omega
      · rw [if_neg h2]
        by_cases h3 : (resps polls).getD 9 0 = 2
        · rw [if_pos h3]
          have := ih (polls + 1)
          omega
        · rw [if_neg h3]
          have := ih (polls + 1)
          omega
    · rw [if_neg h1]
      have := ih (polls + 1)
      omega

lemma waitLoop_no_success (resps : Nat → List Nat)
    (hfail : ∀ k, ¬ (12 ≤ (resps k).length ∧ (resps k).getD 9 0 = 0)) :
    ∀ (t polls : Nat), waitLoop resps t polls = (false, polls + t) := by
  intro t
  induction t with
  | zero => intro polls; simp [waitLoop]
  | succ t ih =>
    intro polls
    have hadd : polls + 1 + t = polls + (t + 1) := by omega
    rw [waitLoop]
    by_cases h1 : 12 ≤ (resps polls).length
    · have h2 : ¬ (resps polls).getD 9 0 = 0 := fun hc => hfail polls ⟨h1, hc⟩
      rw [if_pos h1, if_neg h2]
      by_cases h3 : (resps polls).getD 9 0 = 2
      · rw [if_pos h3, ih (polls + 1), hadd]
      · rw [if_neg h3, ih (polls + 1), hadd]
    · rw [if_neg h1, ih (polls + 1), hadd]

/-- Claim C8: waitForFinger always stops within timeoutSeconds * 10 polls,
and against a transport that never produces a success confirmation (code
0x02, any other code, or fewer than 12 bytes) it makes exactly
timeoutSeconds * 10 polling attempts and returns false; in particular
waitForFinger(1) polls 10 times and fails rather than hanging. -/
theorem waitForFinger_terminates :
    (∀ (resps : Nat → List Nat) (s : Nat),
      (waitForFinger resps s).2 ≤ s * 10) ∧
    (∀ (resps : Nat → List Nat) (s : Nat),
      (∀ k, ¬ (12 ≤ (resps k).length ∧ (resps k).getD 9 0 = 0)) →
        waitForFinger resps s = (false, s * 10)) := by
  constructor
  · intro resps s
    have h := waitLoop_polls_le resps (s * 10) 0
    simpa using h
  · intro resps s hfail
    have h := waitLoop_no_success resps hfail (s * 10) 0
    simpa using h

/-- A 12-byte response carrying the retryable no-finger code 0x02. -/
def noFingerResp : List Nat :=
  [0xEF, 0x01, 0xFF, 0xFF, 0xFF, 0xFF, 0x07, 0x00, 0x03, 0x02, 0x00, 0x06]

/-- Witness for claim C8: a transport that always answers with the
no-finger code 0x02 makes waitForFinger(1) poll 10 times and fail. -/
theorem waitForFinger_terminates_witness :
    waitForFinger (fun _ => noFingerResp) 1 = (false, 10) :=
  waitForFinger_terminates.2 (fun _ => noFingerResp) 1
    (fun _ => (by decide : ¬ (12 ≤ noFingerResp.length ∧ noFingerResp.getD 9 0 = 0)))

/-! ## Claim C10: readResponse never writes past index 31 (lines 1201-1212) -/

/-- Receive loop of readResponse: each arriving byte is stored at the
running index, which is then checked against 32; reaching 32 stops the
loop at once. The incoming list is the byte stream available before the
timeout expires; the result is the written buffer and the returned count. -/
def readLoop : List Nat → Nat → List Nat → List Nat × Nat
  | [], idx, buf => (buf, idx)
  | b :: rest, idx, buf =>
    if 32 ≤ idx + 1 then (buf ++ [b], idx + 1)
    else readLoop rest (idx + 1) (buf ++ [b])

/-- readResponse starts with index 0 and an empty buffer. -/
def readResponse (incoming : List Nat) : List Nat × Nat :=
  readLoop incoming 0 []

lemma readLoop_eq :
    ∀ (incoming : List Nat) (idx : Nat) (buf : List Nat), idx < 32 →
      readLoop incoming idx buf
        = (buf ++ incoming.take (32 - idx), idx + min incoming.length (32 - idx)) := by
  intro incoming
  induction incoming with
  | nil =>
    intro idx buf _
    simp [readLoop]
  | cons b rest ih =>
    intro idx buf hidx
    rw [readLoop]
    by_cases h : 32 ≤ idx + 1
    · have h31 : idx = 31 := by omega
      subst h31
      have ht : (32 : Nat) - 31 = 1 := by omega
      rw [if_pos h, ht, List.take_succ_cons, List.take_zero]
      have hm : min (b :: rest).length 1 = 1 := by
        simp only [List.length_cons]
        omega
      rw [hm]
    · have hlt : idx + 1 < 32 := by omega
      rw [if_neg h, ih (idx + 1) (buf ++ [b]) hlt]
      have htake : (b :: rest).take (32 - idx) = b :: rest.take (32 - (idx + 1)) := by
        have h32 : 32 - idx = (32 - (idx + 1)) + 1 := by omega
        rw [h32, List.take_succ_cons]
      rw [htake]
      have hmin : (idx + 1) + min rest.length (32 - (idx + 1))
          = idx + min (b :: rest).length (32 - idx) := by
        simp only [List.length_cons]
        omega
      rw [hmin]
      simp

/-- Claim C10: for every incoming byte stream readResponse writes exactly
the first min(length, 32) bytes into the buffer, never more than 32
bytes (no write at index 32 or beyond ever happens, so a 32-byte caller
buffer is safe), and returns exactly the number of bytes written. -/
theorem readResponse_bounded (incoming : List Nat) :
    readResponse incoming = (incoming.take 32, min incoming.length 32) ∧
      (readResponse incoming).2 ≤ 32 ∧
      (readResponse incoming).1.length = (readResponse incoming).2 := by
  have h := readLoop_eq incoming 0 [] (by omega)
  have hr : readResponse incoming = (incoming.take 32, min incoming.length 32) := by
    rw [readResponse, h]
    simp
  refine ⟨hr, ?_, ?_⟩
  · rw [hr]
    exact Nat.min_le_right _ _
  · rw [hr]
    show (incoming.take 32).length = min incoming.length 32
    rw [List.length_take, Nat.min_comm]

end Fingerprint
